import Mathlib

/-!
# vg: the Go binding around the NanoVG rendering engine (`context.go`)

A shallow embedding of the binding's own logic: the font cache
(`NewFont`, `NewFontMem`, `FindFont`), the colour adapter (`toColor`), the
font-size setters, the text operators `Text`, `Rune` and `RuneBounds`, and
the composite `Image.Draw`.

The native engine is an external collaborator.  It is modelled by the list
of calls made on it so far (`Context.cbase`) and by an `Engine`, which gives
the value each call returns as a function of the earlier calls.  Go pointers
to `Font` are addresses into `Context.mem`, the `Font` objects allocated so
far; `nil` is `none`.  The model covers a `Context` as `NewContext` builds
it: a live engine handle and a font map allocated with `make`.
-/

namespace Vg

/-! ## Numbers and strings crossing the call boundary -/

/-- The floating-point and opaque C types used by the binding, with the
conversions the Go code applies to them.  `ofConst` converts an untyped Go
constant (an exact rational) to `float64`, `ofCInt` is `float64(i)` for a C
int, `ofCFloat` is `float64(f)` for a C float, `mul` is `float64`
multiplication and `toCFloat` is `C.float(x)`. -/
structure CTypes where
  F64 : Type
  F32 : Type
  NVGpaint : Type
  ofConst : ℚ → F64
  ofCInt : Int → F64
  ofCFloat : F32 → F64
  mul : F64 → F64 → F64
  toCFloat : F64 → F32

/-- Conversion of a Go integer to `C.int` (32 bits, two's complement). -/
def toCInt (i : Int) : Int := (i + 2147483648) % 4294967296 - 2147483648

/-- Conversion of a `uint32` to `C.uchar`: the low eight bits are kept. -/
def toCUchar (v : Nat) : Nat := v % 256

/-- Conversion of a rune (`int32`) to `C.char`, as the byte stored in memory:
the low eight bits are kept. -/
def toCChar (r : Int) : Nat := (r % 256).toNat

/-- UTF-8 encoding of a code point known to be valid. -/
def encodeValid (c : Nat) : List Nat :=
  if c < 128 then [c]
  else if c < 2048 then [192 + c / 64, 128 + c % 64]
  else if c < 65536 then [224 + c / 4096, 128 + c / 64 % 64, 128 + c % 64]
  else [240 + c / 262144, 128 + c / 4096 % 64, 128 + c / 64 % 64, 128 + c % 64]

/-- Go's `string(r)` for a rune `r`: the one-character string of `r`, and of
U+FFFD when `r` is not a valid code point. -/
def runeToString (r : Int) : String :=
  if r < 0 ∨ 1114111 < r ∨ (55296 ≤ r ∧ r ≤ 57343) then String.singleton (Char.ofNat 65533)
  else String.singleton (Char.ofNat r.toNat)

/-- The bytes of a Go string (strings are modelled by valid UTF-8 text). -/
def stringBytes (s : String) : List Nat :=
  s.data.foldr (fun c acc => encodeValid c.toNat ++ acc) []

/-- `C.CString(s)`: a fresh C buffer holding the bytes of `s` followed by a
terminating zero byte. -/
def CString (s : String) : List Nat := stringBytes s ++ [0]

/-! ## The engine -/

/-- Flag of `nanovg_gl.h`, the engine's header. -/
def NVG_ANTIALIAS : Nat := 1

/-- Flag of `nanovg_gl.h`, the engine's header. -/
def NVG_STENCIL_STROKES : Nat := 2

/-- A call into the engine, with the arguments as they cross the boundary.  A
`char*` or `unsigned char*` argument is given by the bytes of the object it
points to; the `end` argument of the text functions is always `nil` in this
binding and is left out. -/
inductive Call (T : CTypes) where
  | nvgCreateGL3 (flags : Nat)
  | nvgCreateFont (name path : List Nat)
  | nvgCreateFontMem (name data : List Nat) (ndata freeData : Int)
  | nvgFindFont (name : List Nat)
  | nvgFontSize (size : T.F32)
  | nvgText (x y : T.F32) (str : List Nat)
  | nvgTextGlyphPositions (x y : T.F32) (str : List Nat) (maxPositions : Int)
  | nvgImageSize (image : Int)
  | nvgDeleteImage (image : Int)
  | nvgImagePattern (ox oy ex ey angle : T.F32) (image repeat_ : Int) (alpha : T.F32)
  | nvgBeginPath
  | nvgRoundedRect (x y w h r : T.F32)
  | nvgFillPaint (paint : T.NVGpaint)
  | nvgFill
  | nvgClosePath

/-- What the engine answers: each function gives the value returned by a
call, given the calls made before it. -/
structure Engine (T : CTypes) where
  retInt : List (Call T) → Call T → Int
  retSize : List (Call T) → Int → Int × Int
  retPaint : List (Call T) → Call T → T.NVGpaint
  retGlyph : List (Call T) → Call T → T.F32 × T.F32 × T.F32

/-! ## Data model -/

/-- Go's `Font`: the engine's font id and the retained data buffer
(`none` is a nil slice). -/
structure Font where
  cbase : Int
  data : Option (List Nat)
deriving DecidableEq, Repr

/-- Go's `map[string]*Font`, as an association list with one entry per key;
a value is the address of a `Font`. -/
abbrev FontMap := List (String × Nat)

/-- Go's `m[key]` with the comma-ok result: `none` when the key is absent. -/
def mapGet : FontMap → String → Option Nat
  | [], _ => none
  | (k, v) :: rest, key => if k = key then some v else mapGet rest key

/-- Go's `m[key] = val`. -/
def mapSet : FontMap → String → Nat → FontMap
  | [], key, val => [(key, val)]
  | (k, v) :: rest, key, val =>
    if k = key then (k, val) :: rest else (k, v) :: mapSet rest key val

/-- The keys of a font map. -/
def mapKeys (m : FontMap) : List String := m.map Prod.fst

/-- Go's `Context`, together with the `Font` objects it has allocated.
`cbase` is the engine handle, identified with the calls made on it. -/
structure Context (T : CTypes) where
  cbase : List (Call T)
  fonts : FontMap
  mem : List Font

/-- Go's `Image`: the engine's image handle (the context is passed along). -/
structure Image where
  handle : Int
deriving DecidableEq, Repr

/-- Go's `Paint`. -/
structure Paint (T : CTypes) where
  cbase : T.NVGpaint

/-- How a Go call ends: it returns, or it panics. -/
inductive Outcome (α : Type) (T : CTypes) where
  | returned (val : α) (ctx : Context T)
  | panicked (msg : String) (ctx : Context T)

/-- Issue one engine call. -/
def Context.call {T : CTypes} (self : Context T) (c : Call T) : Context T :=
  { self with cbase := self.cbase ++ [c] }

/-- The statement `self.fonts[name] = &Font{id, data}`. -/
def Context.store {T : CTypes} (self : Context T) (name : String) (f : Font) : Context T :=
  { self with mem := self.mem ++ [f], fonts := mapSet self.fonts name self.mem.length }

/-! ## Font operations -/

/-- Go's `FONT_DEFAULT`. -/
def FONT_DEFAULT : String := "DejaVuSans"

/-- Go's `Context.NewFont`. -/
def Context.NewFont {T : CTypes} (eng : Engine T) (self : Context T)
    (name filepath : String) : Option Nat × Context T :=
  let self1 :=
    if (mapGet self.fonts name).isSome then self
    else
      let c := Call.nvgCreateFont (CString name) (CString filepath)
      (self.call c).store name ⟨eng.retInt self.cbase c, none⟩
  (mapGet self1.fonts name, self1)

/-- Go's `Context.NewFontMem`.  Taking `&data[0]` panics on an empty slice. -/
def Context.NewFontMem {T : CTypes} (eng : Engine T) (self : Context T)
    (name : String) (data : List Nat) : Outcome (Option Nat × Option String) T :=
  if (mapGet self.fonts name).isSome then
    .returned (mapGet self.fonts name, none) self
  else
    match data with
    | [] => .panicked "runtime error: index out of range [0] with length 0" self
    | _ :: _ =>
      let c := Call.nvgCreateFontMem (CString name) data (toCInt data.length) 0
      let i := eng.retInt self.cbase c
      let self1 := self.call c
      if i = -1 then
        .returned (none, some ("Font could not be created from data: " ++ name)) self1
      else
        let self2 := self1.store name ⟨i, some data⟩
        .returned (mapGet self2.fonts name, none) self2

/-- Go's `Context.FindFont`. -/
def Context.FindFont {T : CTypes} (eng : Engine T) (self : Context T)
    (name : String) : (Option Nat × Option String) × Context T :=
  if (mapGet self.fonts name).isSome then
    ((mapGet self.fonts name, none), self)
  else
    let c := Call.nvgFindFont (CString name)
    let i := eng.retInt self.cbase c
    let self1 := self.call c
    if i = -1 then
      ((none, some ("Font not found: " ++ name)), self1)
    else
      let self2 := self1.store name ⟨i, none⟩
      ((mapGet self2.fonts name, none), self2)

/-- Go's `NewContext`. -/
def NewContext {T : CTypes} (eng : Engine T) : Context T :=
  let ctx : Context T :=
    { cbase := [Call.nvgCreateGL3 (NVG_ANTIALIAS ||| NVG_STENCIL_STROKES)],
      fonts := [], mem := [] }
  (ctx.NewFont eng FONT_DEFAULT "res/Roboto/Roboto-Regular.ttf").2

/-! ## Colour adapter -/

/-- Go's `color.Color` interface: a value with an `RGBA()` method returning
four `uint32` components. -/
structure Color where
  RGBA : Nat × Nat × Nat × Nat
deriving DecidableEq, Repr

/-- The standard library's `color.RGBA{r, g, b, a}` (8-bit fields): its
`RGBA()` method returns each field `v` as `v | v << 8`. -/
def colorRGBA (r g b a : Nat) : Color :=
  ⟨(r ||| r <<< 8, g ||| g <<< 8, b ||| b <<< 8, a ||| a <<< 8)⟩

/-- The standard library's `color.RGBA64{r, g, b, a}` (16-bit fields): its
`RGBA()` method returns the fields. -/
def colorRGBA64 (r g b a : Nat) : Color := ⟨(r, g, b, a)⟩

/-- Go's `toColor`; `nvgRGBA` is the engine's function building a colour from
four `unsigned char` channels. -/
def toColor {NVGcolor : Type} (nvgRGBA : Nat → Nat → Nat → Nat → NVGcolor)
    (c : Color) : NVGcolor :=
  match c.RGBA with
  | (ri, gi, bi, ai) => nvgRGBA (toCUchar ri) (toCUchar gi) (toCUchar bi) (toCUchar ai)

/-! ## Text style and text drawing -/

/-- Go's `Context.SetFontSize`. -/
def Context.SetFontSize {T : CTypes} (self : Context T) (px : T.F64) : Context T :=
  self.call (.nvgFontSize (T.toCFloat px))

/-- Go's `Context.SetFontPtSize`. -/
def Context.SetFontPtSize {T : CTypes} (self : Context T) (pt : T.F64) : Context T :=
  self.call (.nvgFontSize (T.toCFloat (T.mul pt (T.ofConst 1.333333333))))

/-- Go's `Context.Text`. -/
def Context.Text {T : CTypes} (self : Context T) (x y : T.F64) (text : String) : Context T :=
  self.call (.nvgText (T.toCFloat x) (T.toCFloat y) (CString text))

/-- Go's `Context.Rune`: the engine receives the address of a single `C.char`
variable holding `C.char(r)`. -/
def Context.Rune {T : CTypes} (self : Context T) (x y : T.F64) (r : Int) : Context T :=
  self.call (.nvgText (T.toCFloat x) (T.toCFloat y) [toCChar r])

/-- Go's `Context.RuneBounds`. -/
def Context.RuneBounds {T : CTypes} (eng : Engine T) (self : Context T) (r : Int)
    (x y : T.F64) : (T.F64 × T.F64 × T.F64) × Context T :=
  let c := Call.nvgTextGlyphPositions (T.toCFloat x) (T.toCFloat y) (CString (runeToString r)) 1
  match eng.retGlyph self.cbase c with
  | (px, pminx, pmaxx) => ((T.ofCFloat px, T.ofCFloat pminx, T.ofCFloat pmaxx), self.call c)

/-! ## Paths, paints and images -/

/-- Go's `Context.ImagePattern`. -/
def Context.ImagePattern {T : CTypes} (eng : Engine T) (self : Context T)
    (cx cy w h angle : T.F64) (image : Image) (repeat_ : Int) (alpha : T.F64) :
    Paint T × Context T :=
  let c := Call.nvgImagePattern (T.toCFloat cx) (T.toCFloat cy) (T.toCFloat w) (T.toCFloat h)
    (T.toCFloat angle) image.handle (toCInt repeat_) (T.toCFloat alpha)
  (⟨eng.retPaint self.cbase c⟩, self.call c)

/-- Go's `Context.BeginPath`. -/
def Context.BeginPath {T : CTypes} (self : Context T) : Context T :=
  self.call .nvgBeginPath

/-- Go's `Context.RoundedRect`. -/
def Context.RoundedRect {T : CTypes} (self : Context T) (x y w h r : T.F64) : Context T :=
  self.call (.nvgRoundedRect (T.toCFloat x) (T.toCFloat y) (T.toCFloat w) (T.toCFloat h)
    (T.toCFloat r))

/-- Go's `Context.FillPaint`. -/
def Context.FillPaint {T : CTypes} (self : Context T) (paint : Paint T) : Context T :=
  self.call (.nvgFillPaint paint.cbase)

/-- Go's `Context.Fill`. -/
def Context.Fill {T : CTypes} (self : Context T) : Context T :=
  self.call .nvgFill

/-- Go's `Context.ClosePath`. -/
def Context.ClosePath {T : CTypes} (self : Context T) : Context T :=
  self.call .nvgClosePath

/-- Go's `Image.Size`, on the image's context. -/
def Image.Size {T : CTypes} (eng : Engine T) (self : Image) (ctx : Context T) :
    (T.F64 × T.F64) × Context T :=
  match eng.retSize ctx.cbase self.handle with
  | (w, h) => ((T.ofCInt w, T.ofCInt h), ctx.call (.nvgImageSize self.handle))

/-- Go's `Image.Delete`, on the image's context. -/
def Image.Delete {T : CTypes} (self : Image) (ctx : Context T) : Context T :=
  ctx.call (.nvgDeleteImage self.handle)

/-- Go's `Image.Draw`, on the image's context. -/
def Image.Draw {T : CTypes} (eng : Engine T) (self : Image) (ctx : Context T)
    (x y : T.F64) : Context T :=
  match self.Size eng ctx with
  | ((w, h), ctx1) =>
    match ctx1.ImagePattern eng x y w h (T.ofConst (0.0 / 180.0 * 3.14)) self 0
        (T.ofConst 1.0) with
    | (p, ctx2) =>
      let ctx3 := ctx2.BeginPath
      let ctx4 := ctx3.RoundedRect x y w h (T.ofConst 10)
      let ctx5 := ctx4.FillPaint p
      let ctx6 := ctx5.Fill
      ctx6.ClosePath

/-! ## Sequences of operations -/

/-- The context an outcome leaves behind. -/
def Outcome.ctx {α : Type} {T : CTypes} : Outcome α T → Context T
  | .returned _ c => c
  | .panicked _ c => c

/-- A registration call: `NewFont(name, filepath)` or `NewFontMem(name, data)`. -/
inductive FontCall where
  | newFont (name filepath : String)
  | newFontMem (name : String) (data : List Nat)
deriving DecidableEq, Repr

/-- The font name a registration call is about. -/
def FontCall.name : FontCall → String
  | .newFont n _ => n
  | .newFontMem n _ => n

/-- The context after one registration call. -/
def Context.register {T : CTypes} (eng : Engine T) (self : Context T) : FontCall → Context T
  | .newFont n p => (self.NewFont eng n p).2
  | .newFontMem n d => (self.NewFontMem eng n d).ctx

/-- The context after a sequence of registration calls, first call first. -/
def Context.registerAll {T : CTypes} (eng : Engine T) (self : Context T) :
    List FontCall → Context T
  | [] => self
  | c :: cs => (self.register eng c).registerAll eng cs

/-- The engine accepts a registration call: in-memory data is non-empty, and
the engine call, when the name is not cached and one is made, does not
return the failure value -1. -/
def Context.accepts {T : CTypes} (eng : Engine T) (self : Context T) : FontCall → Prop
  | .newFont n p =>
    mapGet self.fonts n = none →
      eng.retInt self.cbase (.nvgCreateFont (CString n) (CString p)) ≠ -1
  | .newFontMem n d =>
    d ≠ [] ∧ (mapGet self.fonts n = none →
      eng.retInt self.cbase (.nvgCreateFontMem (CString n) d (toCInt d.length) 0) ≠ -1)

/-- The engine accepts every call of a sequence, each in the context the
earlier calls leave. -/
def Context.acceptsAll {T : CTypes} (eng : Engine T) (self : Context T) :
    List FontCall → Prop
  | [] => True
  | c :: cs => self.accepts eng c ∧ (self.register eng c).acceptsAll eng cs

instance Context.decidableAccepts {T : CTypes} (eng : Engine T) (self : Context T) :
    (c : FontCall) → Decidable (self.accepts eng c)
  | .newFont n p =>
    inferInstanceAs (Decidable (mapGet self.fonts n = none →
      eng.retInt self.cbase (.nvgCreateFont (CString n) (CString p)) ≠ -1))
  | .newFontMem n d =>
    inferInstanceAs (Decidable (d ≠ [] ∧ (mapGet self.fonts n = none →
      eng.retInt self.cbase (.nvgCreateFontMem (CString n) d (toCInt d.length) 0) ≠ -1)))

instance Context.decidableAcceptsAll {T : CTypes} (eng : Engine T) :
    (self : Context T) → (cs : List FontCall) → Decidable (self.acceptsAll eng cs)
  | _, [] => isTrue trivial
  | self, c :: cs =>
    have : Decidable ((self.register eng c).acceptsAll eng cs) :=
      Context.decidableAcceptsAll eng (self.register eng c) cs
    inferInstanceAs (Decidable (self.accepts eng c ∧ (self.register eng c).acceptsAll eng cs))

/-- An operation of `Context` or `Image` among those embedded above, with its
arguments. -/
inductive Op (T : CTypes) where
  | newFont (name filepath : String)
  | newFontMem (name : String) (data : List Nat)
  | findFont (name : String)
  | setFontSize (px : T.F64)
  | setFontPtSize (pt : T.F64)
  | text (x y : T.F64) (s : String)
  | rune (x y : T.F64) (r : Int)
  | runeBounds (r : Int) (x y : T.F64)
  | imagePattern (cx cy w h angle : T.F64) (image : Image) (repeat_ : Int) (alpha : T.F64)
  | beginPath
  | roundedRect (x y w h r : T.F64)
  | fillPaint (p : Paint T)
  | fill
  | closePath
  | imageSize (image : Image)
  | imageDelete (image : Image)
  | imageDraw (image : Image) (x y : T.F64)

/-- The context after one operation. -/
def Context.step {T : CTypes} (eng : Engine T) (self : Context T) : Op T → Context T
  | .newFont n p => (self.NewFont eng n p).2
  | .newFontMem n d => (self.NewFontMem eng n d).ctx
  | .findFont n => (self.FindFont eng n).2
  | .setFontSize px => self.SetFontSize px
  | .setFontPtSize pt => self.SetFontPtSize pt
  | .text x y s => self.Text x y s
  | .rune x y r => self.Rune x y r
  | .runeBounds r x y => (self.RuneBounds eng r x y).2
  | .imagePattern cx cy w h angle image rep alpha =>
    (self.ImagePattern eng cx cy w h angle image rep alpha).2
  | .beginPath => self.BeginPath
  | .roundedRect x y w h r => self.RoundedRect x y w h r
  | .fillPaint p => self.FillPaint p
  | .fill => self.Fill
  | .closePath => self.ClosePath
  | .imageSize image => (image.Size eng self).2
  | .imageDelete image => image.Delete self
  | .imageDraw image x y => image.Draw eng self x y

/-- The context after a sequence of operations, first operation first. -/
def Context.steps {T : CTypes} (eng : Engine T) (self : Context T) : List (Op T) → Context T
  | [] => self
  | op :: ops => (self.step eng op).steps eng ops

/-! ## A concrete instance, to run the definitions -/

/-- Exact rational arithmetic in place of floating point; paints are numbered. -/
def exactTypes : CTypes where
  F64 := ℚ
  F32 := ℚ
  NVGpaint := Nat
  ofConst := fun q => q
  ofCInt := fun i => (i : ℚ)
  ofCFloat := fun f => f
  mul := fun a b => a * b
  toCFloat := fun x => x

/-- An engine that fails every font call (returns -1), reports every image
as 0 by 0 and numbers paints by the calls made so far. -/
def failingEngine : Engine exactTypes where
  retInt := fun _ _ => -1
  retSize := fun _ _ => (0, 0)
  retPaint := fun hist _ => hist.length
  retGlyph := fun _ _ => ((0 : ℚ), (0 : ℚ), (0 : ℚ))

/-- An engine that accepts every font call, numbering fonts by the calls
made so far. -/
def countingEngine : Engine exactTypes where
  retInt := fun hist _ => hist.length
  retSize := fun _ _ => (64, 32)
  retPaint := fun hist _ => hist.length
  retGlyph := fun _ _ => ((0 : ℚ), (0 : ℚ), (0 : ℚ))

/-- A context as the struct literal of `NewContext` builds it, before any
font is registered. -/
def freshContext (T : CTypes) : Context T :=
  { cbase := [Call.nvgCreateGL3 (NVG_ANTIALIAS ||| NVG_STENCIL_STROKES)], fonts := [], mem := [] }

/-! ## Theorems: the font map -/

theorem mapGet_mapSet_self (m : FontMap) (k : String) (v : Nat) :
    mapGet (mapSet m k v) k = some v := by
  induction m with
  | nil => simp [mapSet, mapGet]
  | cons e rest ih =>
    obtain ⟨k0, v0⟩ := e
    by_cases h : k0 = k
    · simp [mapSet, mapGet, h]
    · simp [mapSet, mapGet, h, ih]

theorem mapGet_mapSet_other (m : FontMap) (k k1 : String) (v : Nat) (h : k ≠ k1) :
    mapGet (mapSet m k v) k1 = mapGet m k1 := by
  induction m with
  | nil => simp [mapSet, mapGet, h]
  | cons e rest ih =>
    obtain ⟨k0, v0⟩ := e
    by_cases h0 : k0 = k
    · subst h0; simp [mapSet, mapGet, h]
    · by_cases h1 : k0 = k1
      · subst h1
        simp [mapSet, mapGet, h0]
      · simp [mapSet, mapGet, h0, h1, ih]

theorem mapGet_eq_none_iff (m : FontMap) (k : String) :
    mapGet m k = none ↔ k ∉ mapKeys m := by
  induction m with
  | nil => simp [mapGet, mapKeys]
  | cons e rest ih =>
    obtain ⟨k0, v0⟩ := e
    by_cases h : k0 = k
    · simp [mapGet, mapKeys, h]
    · have h1 : ¬ k = k0 := fun hk => h hk.symm
      simp [mapGet, h, h1, ih, mapKeys] at *

theorem mapKeys_mapSet_absent (m : FontMap) (k : String) (v : Nat)
    (h : mapGet m k = none) : mapKeys (mapSet m k v) = mapKeys m ++ [k] := by
  induction m with
  | nil => simp [mapSet, mapKeys]
  | cons e rest ih =>
    obtain ⟨k0, v0⟩ := e
    by_cases h0 : k0 = k
    · simp [mapGet, h0] at h
    · simp [mapGet, h0] at h
      simp [mapSet, h0, mapKeys] at *
      exact ih h

/-! ## Theorems: font registration -/

/-- C1. Font registration is idempotent per name: when the font cache already
holds the font `f` under the name `n`, each of `NewFont(n, path)`,
`NewFontMem(n, data)` and `FindFont(n)` returns exactly `f` (with no error
for the two that return one) and leaves the context as it was: no engine
call is made, the cache and the stored fonts are unchanged, whatever path or
data is supplied. -/
theorem registration_idempotent {T : CTypes} (eng : Engine T) (ctx : Context T)
    (n : String) (f : Nat) (path : String) (data : List Nat)
    (h : mapGet ctx.fonts n = some f) :
    ctx.NewFont eng n path = (some f, ctx) ∧
    ctx.NewFontMem eng n data = .returned (some f, none) ctx ∧
    ctx.FindFont eng n = ((some f, none), ctx) := by
  simp [Context.NewFont, Context.NewFontMem, Context.FindFont, h]

theorem registration_idempotent_witness :
    mapGet (NewContext countingEngine).fonts "DejaVuSans" = some 0 ∧
    ((NewContext countingEngine).NewFont countingEngine "DejaVuSans" "other.ttf"
        = (some 0, NewContext countingEngine) ∧
      (NewContext countingEngine).NewFontMem countingEngine "DejaVuSans" [0, 1, 0, 0]
        = .returned (some 0, none) (NewContext countingEngine) ∧
      (NewContext countingEngine).FindFont countingEngine "DejaVuSans"
        = ((some 0, none), NewContext countingEngine)) :=
  ⟨by decide,
    registration_idempotent countingEngine (NewContext countingEngine) "DejaVuSans" 0
      "other.ttf" [0, 1, 0, 0] (by decide)⟩

theorem FindFont_of_absent_unknown {T : CTypes} (eng : Engine T) (ctx : Context T)
    (n : String) (habs : mapGet ctx.fonts n = none)
    (heng : eng.retInt ctx.cbase (.nvgFindFont (CString n)) = -1) :
    ctx.FindFont eng n
      = ((none, some ("Font not found: " ++ n)), ctx.call (.nvgFindFont (CString n))) := by
  simp [Context.FindFont, habs, heng]

/-- C2. `FindFont` surfaces not-found as an error and never a handle: when the
name `n` is absent from the font cache and the engine answers -1 to
`nvgFindFont`, `FindFont(n)` returns a nil font with the error
"Font not found: " followed by `n`; the only effect is the engine call
itself, so the cache and the stored fonts are unchanged and `n` is still
absent. -/
theorem FindFont_not_found {T : CTypes} (eng : Engine T) (ctx : Context T) (n : String)
    (habs : mapGet ctx.fonts n = none)
    (heng : eng.retInt ctx.cbase (.nvgFindFont (CString n)) = -1) :
    ctx.FindFont eng n
        = ((none, some ("Font not found: " ++ n)), ctx.call (.nvgFindFont (CString n))) ∧
    (ctx.FindFont eng n).2.fonts = ctx.fonts ∧
    (ctx.FindFont eng n).2.mem = ctx.mem ∧
    mapGet (ctx.FindFont eng n).2.fonts n = none := by
  simp [Context.FindFont, habs, heng, Context.call]

theorem FindFont_not_found_witness :
    mapGet (NewContext failingEngine).fonts "nonexistent" = none ∧
    failingEngine.retInt (NewContext failingEngine).cbase
        (.nvgFindFont (CString "nonexistent")) = -1 ∧
    (NewContext failingEngine).FindFont failingEngine "nonexistent"
        = ((none, some "Font not found: nonexistent"),
            (NewContext failingEngine).call (.nvgFindFont (CString "nonexistent"))) :=
  ⟨by decide, rfl,
    (FindFont_not_found failingEngine (NewContext failingEngine) "nonexistent"
      (by decide) rfl).1⟩

/-- C3. A rejected `NewFontMem` is atomic: when the name `n` is absent from
the font cache, the data is non-empty and the engine answers -1 to
`nvgCreateFontMem`, `NewFontMem(n, data)` returns a nil font and an error;
the only effect is the engine call itself, so the cache and the stored fonts
are exactly what they were and `n` is still unregistered; and a following
`FindFont(n)`, the engine still answering -1 for `n`, returns a nil font and
an error too, again leaving the cache as it was. -/
theorem NewFontMem_rejected_atomic {T : CTypes} (eng : Engine T) (ctx : Context T)
    (n : String) (data : List Nat)
    (habs : mapGet ctx.fonts n = none)
    (hdata : data ≠ [])
    (hrej : eng.retInt ctx.cbase
      (.nvgCreateFontMem (CString n) data (toCInt data.length) 0) = -1)
    (hfind : eng.retInt
      (ctx.call (.nvgCreateFontMem (CString n) data (toCInt data.length) 0)).cbase
      (.nvgFindFont (CString n)) = -1) :
    ctx.NewFontMem eng n data
        = .returned (none, some ("Font could not be created from data: " ++ n))
            (ctx.call (.nvgCreateFontMem (CString n) data (toCInt data.length) 0)) ∧
    (ctx.NewFontMem eng n data).ctx.fonts = ctx.fonts ∧
    (ctx.NewFontMem eng n data).ctx.mem = ctx.mem ∧
    mapGet (ctx.NewFontMem eng n data).ctx.fonts n = none ∧
    ((ctx.NewFontMem eng n data).ctx.FindFont eng n).1
        = (none, some ("Font not found: " ++ n)) ∧
    ((ctx.NewFontMem eng n data).ctx.FindFont eng n).2.fonts = ctx.fonts := by
  have hret : ctx.NewFontMem eng n data
      = .returned (none, some ("Font could not be created from data: " ++ n))
          (ctx.call (.nvgCreateFontMem (CString n) data (toCInt data.length) 0)) := by
    cases data with
    | nil => exact absurd rfl hdata
    | cons b bs => simp [Context.NewFontMem, habs] at hrej ⊢; simp [hrej]
  have habs1 : mapGet
      (ctx.call (.nvgCreateFontMem (CString n) data (toCInt data.length) 0)).fonts n
      = none := habs
  have hf := FindFont_of_absent_unknown eng
    (ctx.call (.nvgCreateFontMem (CString n) data (toCInt data.length) 0)) n habs1 hfind
  rw [hret]
  refine ⟨rfl, rfl, rfl, habs, ?_, ?_⟩
  · simp only [Outcome.ctx]; rw [hf]
  · simp only [Outcome.ctx]; rw [hf]; rfl

theorem NewFontMem_rejected_atomic_witness :
    mapGet (NewContext failingEngine).fonts "corrupt" = none ∧
    (NewContext failingEngine).NewFontMem failingEngine "corrupt" [1, 2, 3]
        = .returned (none, some "Font could not be created from data: corrupt")
            ((NewContext failingEngine).call
              (.nvgCreateFontMem (CString "corrupt") [1, 2, 3] 3 0)) :=
  ⟨by decide,
    (NewFontMem_rejected_atomic failingEngine (NewContext failingEngine) "corrupt" [1, 2, 3]
      (by decide) (by decide) rfl rfl).1⟩

theorem NewFontMem_empty_of_absent {T : CTypes} (eng : Engine T) (ctx : Context T)
    (n : String) (habs : mapGet ctx.fonts n = none) :
    ctx.NewFontMem eng n []
      = .panicked "runtime error: index out of range [0] with length 0" ctx := by
  simp [Context.NewFontMem, habs]

/-- C4. `NewFontMem` given zero-length data: on the context `NewContext`
returns, where the name "empty" is not registered, `NewFontMem("empty", [])`
does not return a nil font and an error; taking the address of the first
byte of the empty slice panics with an index-out-of-range runtime error
before any engine call.  The context is left as it was, so the name stays
unregistered. -/
theorem NewFontMem_empty_data_panics :
    (NewContext countingEngine).NewFontMem countingEngine "empty" []
      = .panicked "runtime error: index out of range [0] with length 0"
          (NewContext countingEngine) ∧
    mapGet (NewContext countingEngine).fonts "empty" = none :=
  ⟨NewFontMem_empty_of_absent countingEngine (NewContext countingEngine) "empty" (by decide),
    by decide⟩

/-! ## Theorems: counting registered names -/

theorem register_keys {T : CTypes} (eng : Engine T) (ctx : Context T) (c : FontCall)
    (hacc : ctx.accepts eng c) :
    mapKeys (ctx.register eng c).fonts
      = if mapGet ctx.fonts c.name = none then mapKeys ctx.fonts ++ [c.name]
        else mapKeys ctx.fonts := by
  cases c with
  | newFont n p =>
    cases hget : mapGet ctx.fonts n with
    | none =>
      simp [Context.register, Context.NewFont, hget, Context.store, Context.call,
        FontCall.name, mapKeys_mapSet_absent]
    | some f => simp [Context.register, Context.NewFont, hget, FontCall.name]
  | newFontMem n d =>
    obtain ⟨hd, hid⟩ := hacc
    cases hget : mapGet ctx.fonts n with
    | none =>
      have hid1 := hid hget
      cases d with
      | nil => exact absurd rfl hd
      | cons b bs =>
        simp only [List.length_cons, Nat.cast_add, Nat.cast_one] at hid1
        simp [Context.register, Context.NewFontMem, hget, Context.store, Context.call,
          FontCall.name, mapKeys_mapSet_absent, Outcome.ctx, hid1]
    | some f =>
      simp [Context.register, Context.NewFontMem, hget, FontCall.name, Outcome.ctx]

theorem register_keys_nodup {T : CTypes} (eng : Engine T) (ctx : Context T) (c : FontCall)
    (hacc : ctx.accepts eng c) (hnd : (mapKeys ctx.fonts).Nodup) :
    (mapKeys (ctx.register eng c).fonts).Nodup := by
  rw [register_keys eng ctx c hacc]
  split
  · next h =>
    rw [mapGet_eq_none_iff] at h
    exact List.Nodup.append hnd (List.nodup_singleton _) (by simpa using h)
  · exact hnd

theorem register_mem_keys {T : CTypes} (eng : Engine T) (ctx : Context T) (c : FontCall)
    (hacc : ctx.accepts eng c) (n : String) :
    n ∈ mapKeys (ctx.register eng c).fonts ↔ n ∈ mapKeys ctx.fonts ∨ n = c.name := by
  rw [register_keys eng ctx c hacc]
  split
  · simp
  · next h =>
    have hin : c.name ∈ mapKeys ctx.fonts := by
      by_contra hnot
      exact h ((mapGet_eq_none_iff _ _).2 hnot)
    constructor
    · intro hn; exact Or.inl hn
    · rintro (hn | hn)
      · exact hn
      · rw [hn]; exact hin

theorem registerAll_keys {T : CTypes} (eng : Engine T) (calls : List FontCall) :
    ∀ ctx : Context T, ctx.acceptsAll eng calls → (mapKeys ctx.fonts).Nodup →
      (mapKeys (ctx.registerAll eng calls).fonts).Nodup ∧
      ∀ n, n ∈ mapKeys (ctx.registerAll eng calls).fonts
        ↔ n ∈ mapKeys ctx.fonts ∨ n ∈ calls.map FontCall.name := by
  induction calls with
  | nil => intro ctx _ hnd; simp [Context.registerAll, hnd]
  | cons c cs ih =>
    intro ctx hacc hnd
    obtain ⟨hc, hcs⟩ := hacc
    obtain ⟨h1, h2⟩ := ih (ctx.register eng c) hcs (register_keys_nodup eng ctx c hc hnd)
    refine ⟨h1, fun n => ?_⟩
    simp only [Context.registerAll]
    rw [h2 n, register_mem_keys eng ctx c hc n]
    simp [or_assoc]

/-- C5. The font cache counts distinct names: starting from a context with an
empty font cache, after any sequence of `NewFont(name, path)` and
`NewFontMem(name, non-empty data)` calls that the engine accepts, duplicate
names interleaved in any order, the number of entries of the cache is the
number of distinct names in the sequence, and the keys of the cache are
exactly those names. -/
theorem cache_counts_distinct_names {T : CTypes} (eng : Engine T) (ctx : Context T)
    (calls : List FontCall) (hempty : ctx.fonts = [])
    (hacc : ctx.acceptsAll eng calls) :
    (ctx.registerAll eng calls).fonts.length = (calls.map FontCall.name).dedup.length ∧
    ∀ n, n ∈ mapKeys (ctx.registerAll eng calls).fonts ↔ n ∈ calls.map FontCall.name := by
  have hnd : (mapKeys ctx.fonts).Nodup := by simp [hempty, mapKeys]
  obtain ⟨h1, h2⟩ := registerAll_keys eng calls ctx hacc hnd
  have hmem : ∀ n, n ∈ mapKeys (ctx.registerAll eng calls).fonts
      ↔ n ∈ calls.map FontCall.name := by
    intro n
    rw [h2 n]
    simp [hempty, mapKeys]
  refine ⟨?_, hmem⟩
  have hperm : (mapKeys (ctx.registerAll eng calls).fonts).Perm
      (calls.map FontCall.name).dedup := by
    rw [List.perm_ext_iff_of_nodup h1 (List.nodup_dedup _)]
    intro n
    rw [hmem n, List.mem_dedup]
  have hlen := hperm.length_eq
  simpa [mapKeys] using hlen

theorem cache_counts_distinct_names_witness :
    (freshContext exactTypes).fonts = [] ∧
    (freshContext exactTypes).acceptsAll countingEngine
      [.newFont "a" "a.ttf", .newFontMem "b" [1], .newFont "a" "other.ttf",
        .newFontMem "b" [2, 3], .newFont "c" "c.ttf"] ∧
    ((freshContext exactTypes).registerAll countingEngine
      [.newFont "a" "a.ttf", .newFontMem "b" [1], .newFont "a" "other.ttf",
        .newFontMem "b" [2, 3], .newFont "c" "c.ttf"]).fonts.length = 3 :=
  ⟨rfl, by decide,
    (cache_counts_distinct_names countingEngine (freshContext exactTypes)
      [.newFont "a" "a.ttf", .newFontMem "b" [1], .newFont "a" "other.ttf",
        .newFontMem "b" [2, 3], .newFont "c" "c.ttf"] rfl (by decide)).1⟩

/-! ## Theorems: font size -/

/-- C6. Point sizes are converted with the fixed factor 1.333333333: for every
`pt`, `SetFontPtSize(pt)` issues exactly the engine call of
`SetFontSize(pt * 1.333333333)`, that is `nvgFontSize` with the same
single-precision argument; in particular `SetFontPtSize(12)` and
`SetFontSize(12 * 1.333333333)` leave the same context. -/
theorem SetFontPtSize_eq_SetFontSize {T : CTypes} (ctx : Context T) :
    (∀ pt : T.F64,
      ctx.SetFontPtSize pt = ctx.SetFontSize (T.mul pt (T.ofConst 1.333333333)) ∧
      ctx.SetFontPtSize pt
        = ctx.call (.nvgFontSize (T.toCFloat (T.mul pt (T.ofConst 1.333333333))))) ∧
    ctx.SetFontPtSize (T.ofConst 12)
      = ctx.SetFontSize (T.mul (T.ofConst 12) (T.ofConst 1.333333333)) :=
  ⟨fun _ => ⟨rfl, rfl⟩, rfl⟩

/-! ## Theorems: text drawing -/

/-- C7. `Rune` against `Text`: for the rune U+00E9, `Rune(0, 0, r)` hands
`nvgText` the one-byte object 0xE9, the rune cut to a `C.char`, with no
terminating zero, while `Text(0, 0, string(r))` hands it the UTF-8 bytes
0xC3 0xA9 followed by the terminating zero; for the ASCII rune `A` the byte
is right but the terminating zero is still missing.  The sibling
`RuneBounds` does pass the C string of `string(r)`. -/
theorem Rune_not_utf8_cstring :
    (freshContext exactTypes).Rune (0 : ℚ) (0 : ℚ) 233
      = (freshContext exactTypes).call (.nvgText (0 : ℚ) (0 : ℚ) [233]) ∧
    (freshContext exactTypes).Text (0 : ℚ) (0 : ℚ) (runeToString 233)
      = (freshContext exactTypes).call (.nvgText (0 : ℚ) (0 : ℚ) [195, 169, 0]) ∧
    (freshContext exactTypes).Rune (0 : ℚ) (0 : ℚ) 65
      = (freshContext exactTypes).call (.nvgText (0 : ℚ) (0 : ℚ) [65]) ∧
    (freshContext exactTypes).Text (0 : ℚ) (0 : ℚ) (runeToString 65)
      = (freshContext exactTypes).call (.nvgText (0 : ℚ) (0 : ℚ) [65, 0]) ∧
    ((freshContext exactTypes).RuneBounds countingEngine 233 (0 : ℚ) (0 : ℚ)).2
      = (freshContext exactTypes).call
          (.nvgTextGlyphPositions (0 : ℚ) (0 : ℚ) [195, 169, 0] 1) := by
  refine ⟨rfl, ?_, rfl, ?_, ?_⟩
  · have h : CString (runeToString 233) = [195, 169, 0] := by decide
    simp only [Context.Text, h]
    rfl
  · have h : CString (runeToString 65) = [65, 0] := by decide
    simp only [Context.Text, h]
    rfl
  · have h : CString (runeToString 233) = [195, 169, 0] := by decide
    simp only [Context.RuneBounds, h]
    rfl

/-! ## Theorems: drawing an image -/

theorem draw_constants :
    ((0.0 : ℚ) / 180.0 * 3.14 = 0) ∧ ((1.0 : ℚ) = 1) ∧ toCInt 0 = 0 := by
  refine ⟨by norm_num, by norm_num, by decide⟩

/-- C8. `Image.Draw` is the documented composite: for every image, with `w`
and `h` the size the engine reports for its handle, and every `x`, `y`,
`Draw(x, y)` adds to the engine exactly these calls, in this order:
`nvgImageSize` for the handle; `nvgImagePattern(x, y, w, h, 0, handle, 0, 1)`;
`nvgBeginPath`; `nvgRoundedRect(x, y, w, h, 10)`; `nvgFillPaint` with the
paint the engine returned for the pattern; `nvgFill`; `nvgClosePath`.  The
font cache and the stored fonts are unchanged. -/
theorem Image_Draw_calls {T : CTypes} (eng : Engine T) (img : Image) (ctx : Context T)
    (x y : T.F64) :
    (img.Draw eng ctx x y).cbase = ctx.cbase ++
      [ .nvgImageSize img.handle,
        .nvgImagePattern (T.toCFloat x) (T.toCFloat y)
          (T.toCFloat (T.ofCInt (eng.retSize ctx.cbase img.handle).1))
          (T.toCFloat (T.ofCInt (eng.retSize ctx.cbase img.handle).2))
          (T.toCFloat (T.ofConst 0)) img.handle 0 (T.toCFloat (T.ofConst 1)),
        .nvgBeginPath,
        .nvgRoundedRect (T.toCFloat x) (T.toCFloat y)
          (T.toCFloat (T.ofCInt (eng.retSize ctx.cbase img.handle).1))
          (T.toCFloat (T.ofCInt (eng.retSize ctx.cbase img.handle).2))
          (T.toCFloat (T.ofConst 10)),
        .nvgFillPaint (eng.retPaint (ctx.cbase ++ [.nvgImageSize img.handle])
          (.nvgImagePattern (T.toCFloat x) (T.toCFloat y)
            (T.toCFloat (T.ofCInt (eng.retSize ctx.cbase img.handle).1))
            (T.toCFloat (T.ofCInt (eng.retSize ctx.cbase img.handle).2))
            (T.toCFloat (T.ofConst 0)) img.handle 0 (T.toCFloat (T.ofConst 1)))),
        .nvgFill,
        .nvgClosePath ] ∧
    (img.Draw eng ctx x y).fonts = ctx.fonts ∧
    (img.Draw eng ctx x y).mem = ctx.mem := by
  obtain ⟨h0, h1, h2⟩ := draw_constants
  simp only [Image.Draw, Image.Size, Context.ImagePattern, Context.BeginPath,
    Context.RoundedRect, Context.FillPaint, Context.Fill, Context.ClosePath, Context.call,
    h0, h1, h2, List.append_assoc, List.singleton_append, List.cons_append, List.nil_append]
  exact ⟨trivial, trivial, trivial⟩

/-! ## Theorems: colour adapter -/

set_option maxRecDepth 100000 in
theorem low_byte_of_doubled : ∀ v < 256, toCUchar (v ||| v <<< 8) = v := by
  decide

theorem toColor_colorRGBA {NVGcolor : Type} (nvgRGBA : Nat → Nat → Nat → Nat → NVGcolor)
    (r g b a : Nat) (hr : r < 256) (hg : g < 256) (hb : b < 256) (ha : a < 256) :
    toColor nvgRGBA (colorRGBA r g b a) = nvgRGBA r g b a := by
  simp only [toColor, colorRGBA, low_byte_of_doubled r hr, low_byte_of_doubled g hg,
    low_byte_of_doubled b hb, low_byte_of_doubled a ha]

/-- C9. `toColor` on a 16-bit colour: for `color.RGBA64{0x1234, 0, 0, 0xffff}`,
whose `RGBA()` components are (0x1234, 0, 0, 0xffff), `toColor` passes
`nvgRGBA` the low bytes (0x34, 0, 0, 0xff), while the components scaled down
to 0..255, their high bytes, are (0x12, 0, 0, 0xff).  For the 8-bit opaque
red `color.RGBA{255, 0, 0, 255}` the values passed are (255, 0, 0, 255). -/
theorem toColor_passes_low_byte :
    (colorRGBA64 4660 0 0 65535).RGBA = (4660, 0, 0, 65535) ∧
    toColor (fun r g b a => (r, g, b, a)) (colorRGBA64 4660 0 0 65535) = (52, 0, 0, 255) ∧
    (4660 / 256, 0 / 256, 0 / 256, 65535 / 256) = (18, 0, 0, 255) ∧
    toColor (fun r g b a => (r, g, b, a)) (colorRGBA 255 0 0 255) = (255, 0, 0, 255) := by
  decide

/-! ## Theorems: the cache along any sequence of operations -/

theorem store_keeps {T : CTypes} (ctx : Context T) (name : String) (fnt : Font)
    (habs : mapGet ctx.fonts name = none) (n : String) (f : Nat)
    (h : mapGet ctx.fonts n = some f) :
    mapGet (ctx.store name fnt).fonts n = some f := by
  have hne : name ≠ n := by
    intro he
    rw [he, h] at habs
    exact Option.noConfusion habs
  simp only [Context.store]
  rw [mapGet_mapSet_other _ _ _ _ hne, h]

theorem step_keeps_registered {T : CTypes} (eng : Engine T) (ctx : Context T) (op : Op T)
    (n : String) (f : Nat) (h : mapGet ctx.fonts n = some f) :
    mapGet (ctx.step eng op).fonts n = some f := by
  cases op with
  | newFont name p =>
    cases hget : mapGet ctx.fonts name with
    | none =>
      simp only [Context.step, Context.NewFont, hget, Option.isSome_none, Bool.false_eq_true,
        if_false]
      exact store_keeps (ctx.call _) name _ hget n f h
    | some g => simpa [Context.step, Context.NewFont, hget] using h
  | newFontMem name d =>
    cases hget : mapGet ctx.fonts name with
    | none =>
      cases d with
      | nil => simpa [Context.step, Context.NewFontMem, hget, Outcome.ctx] using h
      | cons b bs =>
        simp only [Context.step, Context.NewFontMem, hget, Option.isSome_none,
          Bool.false_eq_true, if_false]
        split
        · exact h
        · exact store_keeps (ctx.call _) name _ hget n f h
    | some g => simpa [Context.step, Context.NewFontMem, hget, Outcome.ctx] using h
  | findFont name =>
    cases hget : mapGet ctx.fonts name with
    | none =>
      simp only [Context.step, Context.FindFont, hget, Option.isSome_none, Bool.false_eq_true,
        if_false]
      split
      · exact h
      · exact store_keeps (ctx.call _) name _ hget n f h
    | some g => simpa [Context.step, Context.FindFont, hget] using h
  | imageDraw image x y => exact h
  | _ => exact h

theorem steps_keep_registered {T : CTypes} (eng : Engine T) (ops : List (Op T)) :
    ∀ (ctx : Context T) (n : String) (f : Nat), mapGet ctx.fonts n = some f →
      mapGet (ctx.steps eng ops).fonts n = some f := by
  induction ops with
  | nil => intro ctx n f h; exact h
  | cons op ops ih =>
    intro ctx n f h
    exact ih (ctx.step eng op) n f (step_keeps_registered eng ctx op n f h)

/-- C10. A failed `NewFont` still registers the name: with an engine that
answers -1 to `nvgCreateFont`, the context `NewContext` returns holds the
name "DejaVuSans" in its font cache, mapped to a `Font` whose engine id is
the failure value -1; a later `NewFont` for that name, whatever the path,
returns this same font and makes no engine call. -/
theorem NewContext_registers_failed_font :
    failingEngine.retInt [Call.nvgCreateGL3 3]
      (.nvgCreateFont (CString "DejaVuSans") (CString "res/Roboto/Roboto-Regular.ttf")) = -1 ∧
    (NewContext failingEngine).fonts = [("DejaVuSans", 0)] ∧
    (NewContext failingEngine).mem = [⟨-1, none⟩] ∧
    ((NewContext failingEngine).NewFont failingEngine "DejaVuSans" "good.ttf").1 = some 0 ∧
    ((NewContext failingEngine).NewFont failingEngine "DejaVuSans" "good.ttf").2.mem
      = [⟨-1, none⟩] := by
  refine ⟨rfl, by decide, by decide, by decide, by decide⟩

end Vg
